import Mathlib

/-!
Verification of the TREN backend's core behaviours: the bounded error
ledger (`src/common/utils/logAppError.ts`), the admin user-refresh fan-out
and status-transition routes (`src/common/models/AppError.ts` router part,
`src/common/routes/router.ts`), the miniapp file-route ownership guard
(`src/common/routes/utils.ts` and the miniapp router), and the broadcast
draft state machine described in the specification.
-/

namespace TREN

/-! ### Bounded error ledger (`src/common/utils/logAppError.ts`) -/

/-- The payload persisted by `AppError.create` in `logAppError`. -/
structure ErrPayload where
  source : String
  message : String
  stack : Option String := none
  path : Option String := none
  method : Option String := none
  status : Option Int := none
  adminTelegramId : Option Int := none
deriving Repr, DecidableEq

/-- One stored `AppError` document: a unique `_id`, the `createdAt`
timestamp added by mongoose, and the payload. -/
structure ErrEntry where
  eid : Nat
  createdAt : Nat
  payload : ErrPayload
deriving Repr, DecidableEq

/-- The persisted error collection, in insertion order. -/
abbrev ErrLedger := List ErrEntry

/-- The ledger capacity used by `logAppError` (`total > 500`). -/
def CAPACITY : Nat := 500

/-- `Model.find().sort({ createdAt: 1 })`: the collection sorted by
ascending creation time. -/
def sortByCreated (key : α → Nat) (l : List α) : List α :=
  l.insertionSort (fun a b => key a ≤ key b)

/-- The prune step shared by both bounded ledgers: count the documents
and, when the count exceeds `cap`, delete the `count - cap` oldest ones
(selected by ascending `createdAt`, removed by `_id`). -/
def pruneOldest (key ident : α → Nat) (cap : Nat) (l : List α) : List α :=
  let total := l.length
  if cap < total then
    let extra := total - cap
    let oldIds := ((sortByCreated key l).take extra).map ident
    if oldIds.length ≠ 0 then
      l.filter (fun e => !(oldIds.contains (ident e)))
    else l
  else l

/-- One append-and-prune cycle of the error ledger: insert the new entry,
then prune as `logAppError` does. -/
def appendAndPrune (l : ErrLedger) (e : ErrEntry) : ErrLedger :=
  pruneOldest ErrEntry.createdAt ErrEntry.eid CAPACITY (l ++ [e])

theorem sortByCreated_perm (key : α → Nat) (l : List α) :
    (sortByCreated key l).Perm l :=
  List.perm_insertionSort _ l

/-- Deleting every element whose id occurs among the ids of the first `k`
elements of a permutation of the list removes at least `k` elements. -/
theorem length_filter_not_take_ids (m s : List α) (hperm : s.Perm m)
    (f : α → Nat) (k : Nat) :
    (m.filter (fun e => !(((s.take k).map f).contains (f e)))).length
      ≤ m.length - k := by
  set ids := (s.take k).map f with hids
  have hcount : m.countP (fun e => !(ids.contains (f e)))
      = s.countP (fun e => !(ids.contains (f e))) :=
    (hperm.countP_eq _).symm
  have htake : (s.take k).countP (fun e => !(ids.contains (f e))) = 0 := by
    rw [List.countP_eq_zero]
    intro a ha
    have hmem : f a ∈ ids := by
      rw [hids]
      exact List.mem_map_of_mem f ha
    simp [hmem]
  have hdrop : (s.drop k).countP (fun e => !(ids.contains (f e)))
      ≤ (s.drop k).length := List.countP_le_length _
  have hlen : (s.drop k).length = m.length - k := by
    rw [List.length_drop, hperm.length_eq]
  have hsum : s.countP (fun e => !(ids.contains (f e)))
      = (s.take k).countP (fun e => !(ids.contains (f e)))
        + (s.drop k).countP (fun e => !(ids.contains (f e))) := by
    conv_lhs => rw [(List.take_append_drop k s).symm]
    exact List.countP_append _ _ _
  calc (m.filter (fun e => !(ids.contains (f e)))).length
      = m.countP (fun e => !(ids.contains (f e))) :=
        (List.countP_eq_length_filter _ _).symm
    _ = s.countP (fun e => !(ids.contains (f e))) := hcount
    _ ≤ m.length - k := by omega

/-- After a prune cycle the collection never exceeds the capacity: the
selected overflow of oldest ids is nonempty whenever the count exceeds
`cap`, and deleting those ids removes at least the overflow. -/
theorem length_pruneOldest_le (key ident : α → Nat) (cap : Nat) (l : List α) :
    (pruneOldest key ident cap l).length ≤ cap := by
  unfold pruneOldest
  by_cases hlt : cap < l.length
  · have hperm := sortByCreated_perm key l
    by_cases hid : (((sortByCreated key l).take (l.length - cap)).map ident).length ≠ 0
    · rw [if_pos hlt, if_pos hid]
      have := length_filter_not_take_ids l (sortByCreated key l) hperm ident
        (l.length - cap)
      omega
    · exfalso
      apply hid
      rw [List.length_map, List.length_take, hperm.length_eq]
      omega
  · rw [if_neg hlt]
    omega

theorem length_appendAndPrune_le (l : ErrLedger) (e : ErrEntry) :
    (appendAndPrune l e).length ≤ CAPACITY :=
  length_pruneOldest_le _ _ _ _

/-- The JS value passed to `logAppError` as `error`: either an `Error`
instance (with `message` and optional `stack`) or any other value, kept as
its string conversion. -/
inductive ErrValue
  | jsError (message : String) (stack : Option String)
  | nonError (stringRepr : String)
deriving Repr, DecidableEq

/-- `error instanceof Error ? error.message : String(error)`. -/
def ErrValue.message : ErrValue → String
  | .jsError m _ => m
  | .nonError s => s

/-- `error instanceof Error ? error.stack : undefined`. -/
def ErrValue.stack : ErrValue → Option String
  | .jsError _ s => s
  | .nonError _ => none

/-- The `LogContext` argument of `logAppError`. -/
structure LogContext where
  source : String
  path : Option String := none
  method : Option String := none
  status : Option Int := none
  adminTelegramId : Option Int := none
deriving Repr, DecidableEq

/-- JS truthiness of an optional string (`if (stack) ...`): present and
non-empty. -/
def strTruthy : Option String → Bool
  | some s => s ≠ ""
  | none => false

/-- The payload `logAppError` builds: `source` and `message` always,
`stack`/`path`/`method` only when truthy, `status`/`adminTelegramId` only
when not `undefined`. -/
def buildPayload (err : ErrValue) (ctx : LogContext) : ErrPayload :=
  { source := ctx.source
    message := err.message
    stack := if strTruthy err.stack then err.stack else none
    path := if strTruthy ctx.path then ctx.path else none
    method := if strTruthy ctx.method then ctx.method else none
    status := ctx.status
    adminTelegramId := ctx.adminTelegramId }

/-- Which of the four persistence calls inside `logAppError`'s `try` block
throw when reached (`AppError.create`, `countDocuments`, `find`,
`deleteMany`). -/
structure DbFailures where
  createFails : Bool := false
  countFails : Bool := false
  findFails : Bool := false
  deleteFails : Bool := false
deriving Repr, DecidableEq

def noFailures : DbFailures := {}

/-- The `try` block of `logAppError`: each persistence call either throws
(per `f`) or performs its effect. Returns the final collection state and
the thrown message, if any; writes performed before a throw persist. -/
def logAppErrorBody (f : DbFailures) (eid now : Nat) (err : ErrValue)
    (ctx : LogContext) (st : ErrLedger) : ErrLedger × Option String :=
  if f.createFails then (st, some "create failed")
  else
    let st1 := st ++ [⟨eid, now, buildPayload err ctx⟩]
    if f.countFails then (st1, some "count failed")
    else
      let total := st1.length
      if 500 < total then
        if f.findFails then (st1, some "find failed")
        else
          let extra := total - 500
          let oldIds := ((sortByCreated ErrEntry.createdAt st1).take extra).map
            ErrEntry.eid
          if oldIds.length ≠ 0 then
            if f.deleteFails then (st1, some "delete failed")
            else (st1.filter (fun e => !(oldIds.contains e.eid)), none)
          else (st1, none)
      else (st1, none)

/-- `logAppError`: the body runs inside `try ... catch {}` — any thrown
error is swallowed (the `catch` block is empty, commented "Avoid recursive
logging failures") and nothing propagates to the caller. -/
def logAppError (f : DbFailures) (eid now : Nat) (err : ErrValue)
    (ctx : LogContext) (st : ErrLedger) : ErrLedger × Option String :=
  match logAppErrorBody f eid now err ctx st with
  | (st', _) => (st', none)

/-- A completed (failure-free) `logAppError` call performs exactly one
append-and-prune cycle. -/
theorem logAppError_noFailures (eid now : Nat) (err : ErrValue)
    (ctx : LogContext) (st : ErrLedger) :
    logAppError noFailures eid now err ctx st
      = (appendAndPrune st ⟨eid, now, buildPayload err ctx⟩, none) := by
  unfold logAppError logAppErrorBody appendAndPrune pruneOldest noFailures
  simp only [Bool.false_eq_true, if_false, CAPACITY]
  split
  · split
    · rfl
    · rfl
  · rfl

/-- One sequential run of `logAppError` cycles (all completing), threading
the persisted collection through. Each item is `(_id, createdAt, error,
context)`. -/
def runLog (items : List (Nat × Nat × ErrValue × LogContext))
    (init : ErrLedger) : ErrLedger :=
  items.foldl
    (fun st it => (logAppError noFailures it.1 it.2.1 it.2.2.1 it.2.2.2 st).1)
    init

/-- C1: for every sequence of appends to the error ledger via
`logAppError`, after each append-and-prune cycle completes the number of
stored entries is at most the capacity 500. (Stated for the cycle ending
at any point of the sequence, over any starting state.) -/
theorem errorLedger_count_le_capacity (init : ErrLedger)
    (items : List (Nat × Nat × ErrValue × LogContext))
    (last : Nat × Nat × ErrValue × LogContext) :
    (runLog (items ++ [last]) init).length ≤ CAPACITY := by
  unfold runLog
  rw [List.foldl_append]
  simp only [List.foldl_cons, List.foldl_nil]
  rw [logAppError_noFailures]
  exact length_appendAndPrune_le _ _

/-- C3: whatever the error value, the context, and whichever persistence
calls fail, `logAppError` never lets an error escape to its caller: the
second component (the propagated exception) is always `none`, so the
caller's primary flow continues unaffected. -/
theorem logAppError_swallows_failures (f : DbFailures) (eid now : Nat)
    (err : ErrValue) (ctx : LogContext) (st : ErrLedger) :
    (logAppError f eid now err ctx st).2 = none := by
  unfold logAppError
  rfl

/-- Creation order of stored documents: both the mongoose `createdAt`
timestamp and the `_id` grow along insertion order. -/
def entOrd (a b : ErrEntry) : Prop := a.createdAt < b.createdAt ∧ a.eid < b.eid

instance : DecidableRel entOrd := fun _ _ =>
  inferInstanceAs (Decidable (_ ∧ _))

instance : IsTrans ErrEntry entOrd :=
  ⟨fun _ _ _ hab hbc => ⟨lt_trans hab.1 hbc.1, lt_trans hab.2 hbc.2⟩⟩

/-- Executable check that consecutive entries are in creation order. -/
def chainOkB : ErrLedger → Bool
  | [] => true
  | [_] => true
  | a :: b :: rest => (decide (entOrd a b)) && chainOkB (b :: rest)

/-- A well-formed ledger state: entries in insertion order carry strictly
increasing creation timestamps and ids, as mongoose produces them. -/
def WfLedger (l : ErrLedger) : Prop := chainOkB l = true

instance (l : ErrLedger) : Decidable (WfLedger l) :=
  inferInstanceAs (Decidable (_ = _))

theorem chainOkB_iff : ∀ l : ErrLedger, chainOkB l = true ↔ l.Chain' entOrd
  | [] => by simp [chainOkB]
  | [_] => by simp [chainOkB]
  | a :: b :: rest => by
    rw [List.chain'_cons]
    simp only [chainOkB, Bool.and_eq_true, decide_eq_true_eq]
    exact and_congr Iff.rfl (chainOkB_iff (b :: rest))

theorem WfLedger.pairwise {l : ErrLedger} (h : WfLedger l) :
    l.Pairwise entOrd :=
  List.chain'_iff_pairwise.mp ((chainOkB_iff l).mp h)

theorem sortByCreated_eq_self {l : ErrLedger} (h : WfLedger l) :
    sortByCreated ErrEntry.createdAt l = l := by
  apply List.Sorted.insertionSort_eq
  exact h.pairwise.imp (fun hab => le_of_lt hab.1)

/-- C2: when an append brings the count above the capacity, the prune
removes exactly the `overflow = count - 500` strictly oldest entries: the
result is the suffix of the appended collection past the overflow, its
size is exactly the capacity, exactly `overflow` entries are removed, and
every removed entry is strictly older than every retained one. -/
theorem errorLedger_prune_exact_oldest (l : ErrLedger) (e : ErrEntry)
    (hwf : WfLedger (l ++ [e])) (hover : CAPACITY < (l ++ [e]).length) :
    appendAndPrune l e = (l ++ [e]).drop ((l ++ [e]).length - CAPACITY) ∧
    (appendAndPrune l e).length = CAPACITY ∧
    ((l ++ [e]).take ((l ++ [e]).length - CAPACITY)).length
      = (l ++ [e]).length - CAPACITY ∧
    ∀ x ∈ (l ++ [e]).take ((l ++ [e]).length - CAPACITY),
      ∀ y ∈ appendAndPrune l e, x.createdAt < y.createdAt := by
  set m := l ++ [e] with hm
  set k := m.length - CAPACITY with hk
  have hk_le : k ≤ m.length := by omega
  have hk_pos : 0 < k := by omega
  have hpw := hwf.pairwise
  have hcross : ∀ x ∈ m.take k, ∀ y ∈ m.drop k, entOrd x y := by
    have := (List.take_append_drop k m).symm ▸ hpw
    exact (List.pairwise_append.mp this).2.2
  set ids := (m.take k).map ErrEntry.eid with hidsdef
  have hids : ∀ a ∈ m.drop k, a.eid ∉ ids := by
    intro a ha hmem
    rw [hidsdef] at hmem
    obtain ⟨x, hx, hxe⟩ := List.mem_map.mp hmem
    have : x.eid < a.eid := (hcross x hx a ha).2
    omega
  have hfilter : m.filter (fun e => !(ids.contains e.eid)) = m.drop k := by
    have h1 : (m.take k).filter (fun e => !(ids.contains e.eid)) = [] := by
      rw [List.filter_eq_nil_iff]
      intro a ha
      have : a.eid ∈ ids := by
        rw [hidsdef]
        exact List.mem_map_of_mem ErrEntry.eid ha
      simp [this]
    have h2 : (m.drop k).filter (fun e => !(ids.contains e.eid)) = m.drop k := by
      rw [List.filter_eq_self]
      intro a ha
      have := hids a ha
      simp [this]
    calc m.filter (fun e => !(ids.contains e.eid))
        = (m.take k ++ m.drop k).filter (fun e => !(ids.contains e.eid)) := by
          rw [List.take_append_drop]
      _ = m.drop k := by rw [List.filter_append, h1, h2, List.nil_append]
  have happ : appendAndPrune l e = m.drop k := by
    unfold appendAndPrune pruneOldest
    rw [← hm]
    rw [if_pos hover, sortByCreated_eq_self hwf]
    rw [if_pos]
    · exact hfilter
    · rw [List.length_map, List.length_take]
      omega
  refine ⟨happ, ?_, ?_, ?_⟩
  · rw [happ, List.length_drop]
    omega
  · rw [List.length_take]
    omega
  · intro x hx y hy
    rw [happ] at hy
    exact (hcross x hx y hy).1

/-- A sample payload for concrete evaluation. -/
def wPayload : ErrPayload := { source := "api", message := "boom" }

/-- A concrete full ledger: 500 entries with increasing ids/timestamps. -/
def wLedger : ErrLedger := (List.range 500).map (fun i => ⟨i, i, wPayload⟩)

/-- The 501st entry appended on top of the full ledger. -/
def wEntry : ErrEntry := ⟨500, 500, wPayload⟩

set_option maxRecDepth 8000 in
/-- Witness for `errorLedger_prune_exact_oldest`: the concrete 501-entry
state satisfies both hypotheses and the theorem applies to it. -/
theorem errorLedger_prune_exact_oldest_witness :
    WfLedger (wLedger ++ [wEntry]) ∧ CAPACITY < (wLedger ++ [wEntry]).length ∧
    (appendAndPrune wLedger wEntry
        = (wLedger ++ [wEntry]).drop ((wLedger ++ [wEntry]).length - CAPACITY) ∧
      (appendAndPrune wLedger wEntry).length = CAPACITY ∧
      ((wLedger ++ [wEntry]).take ((wLedger ++ [wEntry]).length - CAPACITY)).length
        = (wLedger ++ [wEntry]).length - CAPACITY ∧
      ∀ x ∈ (wLedger ++ [wEntry]).take ((wLedger ++ [wEntry]).length - CAPACITY),
        ∀ y ∈ appendAndPrune wLedger wEntry, x.createdAt < y.createdAt) :=
  ⟨by decide, by decide,
    errorLedger_prune_exact_oldest wLedger wEntry (by decide) (by decide)⟩

/-! ### The broadcast history ledger (`Broadcast` model and the
`broadcast_send` handler of the bot sources) -/

/-- One stored `Broadcast` document (the `Broadcast` schema): the operator,
the composed text and photos, and the delivery counts, plus `_id` and the
mongoose `createdAt` timestamp. The `broadcast_send` handler creates it
with `totalRecipients = successCount + failedCount`. -/
structure BroadcastEntry where
  eid : Nat
  createdAt : Nat
  adminTelegramId : Int
  text : String
  photoFileIds : List String
  totalRecipients : Nat
  successCount : Nat
  failedCount : Nat
deriving Repr, DecidableEq

abbrev BroadcastLedger := List BroadcastEntry

/-- The append-and-prune cycle performed by the `broadcast_send` handler
after the fan-out: `Broadcast.create` the outcome entry, then
`countDocuments`, and when the count exceeds 500 delete the
`count - 500` oldest documents (selected by ascending `createdAt`,
removed by `_id`) — the same cycle as `logAppError`, over the independent
`Broadcast` collection. -/
def broadcastAppendAndPrune (l : BroadcastLedger) (e : BroadcastEntry) :
    BroadcastLedger :=
  pruneOldest BroadcastEntry.createdAt BroadcastEntry.eid 500 (l ++ [e])

/-- C4: the repository keeps two independent bounded-ledger instances —
the error log (`logAppError`) and the broadcast history (the
`broadcast_send` handler) — over distinct collections, and both enforce
the same capacity-500 append-then-prune eviction: any append to either
leaves at most 500 entries. -/
theorem both_ledgers_bounded (le : ErrLedger) (ee : ErrEntry)
    (lb : BroadcastLedger) (eb : BroadcastEntry) :
    (appendAndPrune le ee).length ≤ 500 ∧
    (broadcastAppendAndPrune lb eb).length ≤ 500 := by
  exact ⟨length_appendAndPrune_le le ee, length_pruneOldest_le _ _ _ _⟩

/-! ### Admin user-refresh fan-out (`POST /api/admin/users/refresh`) -/

/-- A fetched recipient (`User.find({ isBot: { $ne: true } }).select("telegramId")`):
only the optional `telegramId` field matters to the loop. -/
structure RefreshUser where
  telegramId : Option Int
deriving Repr, DecidableEq

/-- Outcome of the per-recipient round trip: `getChat` returns a usable
chat and the subsequent update succeeds (`ok`), returns an unusable
response (`badChat`, i.e. `!chat?.ok || !chat.result`), or some call in the
`try` block throws (`thrown`). -/
inductive FetchOutcome
  | ok
  | badChat
  | thrown
deriving Repr, DecidableEq

/-- JS truthiness of `telegramId` in `if (!telegramId) continue`:
present and nonzero. -/
def RefreshUser.hasDest (u : RefreshUser) : Bool :=
  match u.telegramId with
  | some t => t != 0
  | none => false

/-- The two mutable counters of the loop. -/
structure RefreshTally where
  updatedCount : Nat := 0
  failedCount : Nat := 0
deriving Repr, DecidableEq

/-- One iteration of the `for (const user of users)` loop: skip a falsy
`telegramId` without touching either counter, otherwise tally the outcome
(the per-recipient `try`/`catch` turns a throw into `failedCount += 1`). -/
def refreshStep (outcome : Int → FetchOutcome) (t : RefreshTally)
    (u : RefreshUser) : RefreshTally :=
  match u.telegramId with
  | none => t
  | some tid =>
    if tid = 0 then t
    else
      match outcome tid with
      | .ok => { t with updatedCount := t.updatedCount + 1 }
      | .badChat => { t with failedCount := t.failedCount + 1 }
      | .thrown => { t with failedCount := t.failedCount + 1 }

/-- The JSON body of the 200 response:
`{ processed: users.length, updated, failed }`. -/
structure RefreshResponse where
  processed : Nat
  updated : Nat
  failed : Nat
deriving Repr, DecidableEq

/-- The fan-out of `POST /api/admin/users/refresh` over the fetched
recipient list, with `outcome` abstracting the per-recipient network
result. -/
def refreshUsers (outcome : Int → FetchOutcome) (users : List RefreshUser) :
    RefreshResponse :=
  let t := users.foldl (refreshStep outcome) {}
  { processed := users.length
    updated := t.updatedCount
    failed := t.failedCount }

/-- One loop iteration adds the same contribution whatever the counters
already hold. -/
theorem refreshStep_eq (outcome : Int → FetchOutcome) (t : RefreshTally)
    (u : RefreshUser) :
    refreshStep outcome t u
      = ⟨t.updatedCount + (refreshStep outcome {} u).updatedCount,
         t.failedCount + (refreshStep outcome {} u).failedCount⟩ := by
  cases u with
  | mk tid? =>
    cases tid? with
    | none => simp [refreshStep]
    | some tid =>
      by_cases h0 : tid = 0
      · simp [refreshStep, h0]
      · cases houtcome : outcome tid <;> simp [refreshStep, h0, houtcome]

/-- The counters only grow by the per-user contributions of the suffix. -/
theorem foldl_refreshStep_shift (outcome : Int → FetchOutcome) :
    ∀ (l : List RefreshUser) (t : RefreshTally),
      l.foldl (refreshStep outcome) t
        = ⟨t.updatedCount + (l.foldl (refreshStep outcome) {}).updatedCount,
           t.failedCount + (l.foldl (refreshStep outcome) {}).failedCount⟩
  | [], t => by simp
  | u :: rest, t => by
    rw [List.foldl_cons, List.foldl_cons,
      foldl_refreshStep_shift outcome rest (refreshStep outcome t u),
      foldl_refreshStep_shift outcome rest (refreshStep outcome {} u),
      refreshStep_eq outcome t u]
    dsimp only
    rw [RefreshTally.mk.injEq]
    omega

/-- A recipient with a destination contributes exactly one tick, split
between the two counters; a destination-less one contributes nothing. -/
theorem refreshStep_contribution (outcome : Int → FetchOutcome)
    (u : RefreshUser) :
    (refreshStep outcome {} u).updatedCount
      + (refreshStep outcome {} u).failedCount
      = if u.hasDest then 1 else 0 := by
  cases u with
  | mk tid? =>
    cases tid? with
    | none => simp [refreshStep, RefreshUser.hasDest]
    | some tid =>
      by_cases h0 : tid = 0
      · simp [refreshStep, RefreshUser.hasDest, h0]
      · cases houtcome : outcome tid <;>
          simp [refreshStep, RefreshUser.hasDest, h0, houtcome]

theorem refresh_counts_filter (outcome : Int → FetchOutcome) :
    ∀ l : List RefreshUser,
      (l.foldl (refreshStep outcome) {}).updatedCount
        + (l.foldl (refreshStep outcome) {}).failedCount
        = (l.filter RefreshUser.hasDest).length
  | [] => by simp
  | u :: rest => by
    rw [List.foldl_cons, foldl_refreshStep_shift outcome rest]
    dsimp only
    have hu := refreshStep_contribution outcome u
    have ih := refresh_counts_filter outcome rest
    by_cases hd : u.hasDest
    · simp only [hd, if_true] at hu
      simp only [List.filter_cons, hd, if_true, List.length_cons]
      omega
    · have hd' : u.hasDest = false := by
        cases h : u.hasDest
        · rfl
        · exact absurd h hd
      rw [hd'] at hu
      simp at hu
      simp [List.filter_cons, hd']
      omega

/-- Counterexample to C5 as stated: a fetched recipient whose
`telegramId` is missing is skipped by `continue` — counted in neither
`updated` nor `failed` — yet still counted in `processed = users.length`,
so the reported totals do not satisfy `total = success + failure`, and
`total` is not the number of recipients with a destination. -/
theorem refresh_total_counts_destinationless :
    (refreshUsers (fun _ => .ok) [⟨none⟩]).processed = 1 ∧
    (refreshUsers (fun _ => .ok) [⟨none⟩]).updated = 0 ∧
    (refreshUsers (fun _ => .ok) [⟨none⟩]).failed = 0 ∧
    ([(⟨none⟩ : RefreshUser)].filter RefreshUser.hasDest).length = 0 ∧
    (refreshUsers (fun _ => .ok) [⟨none⟩]).processed
      ≠ (refreshUsers (fun _ => .ok) [⟨none⟩]).updated
        + (refreshUsers (fun _ => .ok) [⟨none⟩]).failed := by
  decide

/-- C5 (amended): after a completed fan-out, `updated + failed` equals the
number of fetched recipients with a (truthy) destination, while
`processed` counts every fetched non-bot recipient — including those
skipped for a missing destination — so
`processed = updated + failed + #destination-less`. -/
theorem refresh_totals_partition (outcome : Int → FetchOutcome)
    (users : List RefreshUser) :
    (refreshUsers outcome users).updated + (refreshUsers outcome users).failed
      = (users.filter RefreshUser.hasDest).length ∧
    (refreshUsers outcome users).processed
      = (refreshUsers outcome users).updated + (refreshUsers outcome users).failed
        + (users.filter (fun u => !u.hasDest)).length := by
  have key := refresh_counts_filter outcome users
  have hsplit : users.length
      = (users.filter RefreshUser.hasDest).length
        + (users.filter (fun u => !u.hasDest)).length := by
    rw [← List.countP_eq_length_filter, ← List.countP_eq_length_filter]
    simpa using List.length_eq_countP_add_countP
      (fun u : RefreshUser => u.hasDest) users
  unfold refreshUsers
  dsimp only
  exact ⟨key, by omega⟩

/-- C6: each per-recipient send is independent — a recipient whose round
trip fails contributes exactly one `failed` tick, and the tallies of the
recipients before and after it are exactly what they would be on their
own: the loop is never aborted and no other recipient's bookkeeping is
affected. -/
theorem refresh_failure_isolated (outcome : Int → FetchOutcome)
    (pre post : List RefreshUser) (r : RefreshUser) (tid : Int)
    (hr : r.telegramId = some tid) (h0 : tid ≠ 0)
    (hfail : outcome tid ≠ .ok) :
    (refreshUsers outcome (pre ++ r :: post)).updated
      = (refreshUsers outcome pre).updated + (refreshUsers outcome post).updated ∧
    (refreshUsers outcome (pre ++ r :: post)).failed
      = (refreshUsers outcome pre).failed + 1 + (refreshUsers outcome post).failed ∧
    (refreshUsers outcome (pre ++ r :: post)).processed
      = pre.length + 1 + post.length := by
  have hstep : ∀ t : RefreshTally, refreshStep outcome t r
      = ⟨t.updatedCount, t.failedCount + 1⟩ := by
    intro t
    cases houtcome : outcome tid with
    | ok => exact absurd houtcome hfail
    | badChat => simp [refreshStep, hr, h0, houtcome]
    | thrown => simp [refreshStep, hr, h0, houtcome]
  unfold refreshUsers
  dsimp only
  rw [List.foldl_append, List.foldl_cons, hstep,
    foldl_refreshStep_shift outcome post]
  dsimp only
  simp only [List.length_append, List.length_cons]
  refine ⟨?_, ?_, ?_⟩
  · trivial
  · trivial
  · omega

/-- Witness for `refresh_failure_isolated`: a concrete failing recipient
between two successful ones. -/
theorem refresh_failure_isolated_witness :
    (⟨some 7⟩ : RefreshUser).telegramId = some 7 ∧ (7 : Int) ≠ 0 ∧
    (fun _ : Int => FetchOutcome.thrown) 7 ≠ .ok ∧
    ((refreshUsers (fun _ => .thrown) ([⟨some 1⟩] ++ (⟨some 7⟩ : RefreshUser) :: [⟨some 2⟩])).updated
        = (refreshUsers (fun _ => .thrown) [⟨some 1⟩]).updated
          + (refreshUsers (fun _ => .thrown) [⟨some 2⟩]).updated ∧
      (refreshUsers (fun _ => .thrown) ([⟨some 1⟩] ++ (⟨some 7⟩ : RefreshUser) :: [⟨some 2⟩])).failed
        = (refreshUsers (fun _ => .thrown) [⟨some 1⟩]).failed + 1
          + (refreshUsers (fun _ => .thrown) [⟨some 2⟩]).failed ∧
      (refreshUsers (fun _ => .thrown) ([⟨some 1⟩] ++ (⟨some 7⟩ : RefreshUser) :: [⟨some 2⟩])).processed
        = [(⟨some 1⟩ : RefreshUser)].length + 1 + [(⟨some 2⟩ : RefreshUser)].length) :=
  ⟨rfl, by decide, by decide,
    refresh_failure_isolated (fun _ => .thrown) [⟨some 1⟩] [⟨some 2⟩] ⟨some 7⟩ 7
      rfl (by decide) (by decide)⟩

/-! ### Broadcast draft state machine and media aggregator (the bot
sources: `BroadcastDraft`, `bot.on("photo")` and its `setTimeout`
debounce) -/

/-- `MAX_BROADCAST_PHOTOS` from the bot sources. -/
def MAX_BROADCAST_PHOTOS : Nat := 3

/-- The debounce interval of the photo handler's `setTimeout` (700 ms). -/
def DEBOUNCE_MS : Nat := 700

/-- The `step` union of `BroadcastDraft`. -/
inductive BroadcastStep
  | await_photos
  | await_text
  | preview
deriving Repr, DecidableEq

/-- The per-operator `BroadcastDraft`: composition step, collected photo
file ids, optional caption, the album correlation id, and the pending
`setTimeout` handle — modelled by the scheduled deadline it was armed
with; `none` when no handle was ever stored. -/
structure BroadcastDraft where
  step : BroadcastStep
  photoFileIds : List String
  text : Option String := none
  mediaGroupId : Option String := none
  mediaGroupTimer : Option Nat := none
deriving Repr, DecidableEq

/-- The draft created by the broadcast command:
`{ step: "await_photos", photoFileIds: [] }`. -/
def freshBroadcastDraft : BroadcastDraft := { step := .await_photos, photoFileIds := [] }

/-- What the photo handler replies with (or that it silently returned). -/
inductive PhotoReply
  | silentIgnore
  | photoFailed
  | limitNotice
  | buffered
  | photoReceivedNext
deriving Repr, DecidableEq

/-- `bot.on("photo", ...)`: silently return without a draft or outside
`await_photos`; complain when no photo file id can be extracted; reject
with the "максимум 3 фото" notice when `photoFileIds.length >=
MAX_BROADCAST_PHOTOS`; otherwise push the photo and, with a
`media_group_id`, clear any pending timer and arm a new 700 ms one
(modelled as overwriting the stored deadline), while without one advance
the step to `await_text` immediately — leaving the stored timer handle
untouched, exactly as the source does. -/
def onPhoto (time : Nat) (photoId : Option String) (mediaGroupId : Option String) :
    Option BroadcastDraft → Option BroadcastDraft × PhotoReply
  | none => (none, .silentIgnore)
  | some draft =>
    if draft.step ≠ .await_photos then (some draft, .silentIgnore)
    else
      match photoId with
      | none => (some draft, .photoFailed)
      | some pid =>
        if MAX_BROADCAST_PHOTOS ≤ draft.photoFileIds.length then
          (some draft, .limitNotice)
        else
          let d1 : BroadcastDraft := { draft with photoFileIds := draft.photoFileIds ++ [pid] }
          match mediaGroupId with
          | some gid =>
            (some { d1 with mediaGroupId := some gid,
                            mediaGroupTimer := some (time + DEBOUNCE_MS) }, .buffered)
          | none =>
            (some { d1 with step := .await_text }, .photoReceivedNext)

/-- The `setTimeout` callback of the photo handler, acting on the draft it
closed over: `if (draft.photoFileIds.length === 0) return;` and otherwise
`draft.step = "await_text"` plus the operator prompt — with no generation
or step guard of any kind. Returns whether the callback acted. -/
def mediaGroupTimerFire (d : BroadcastDraft) : BroadcastDraft × Bool :=
  if d.photoFileIds.length = 0 then (d, false)
  else ({ d with step := .await_text }, true)

/-- Process the photo events of one album burst in arrival order, counting
the immediate (non-album-branch) transitions to `await_text`. Each event
is a pair `(time, photoFileId)`; all carry the burst's `media_group_id`. -/
def runBurstPhotos (gid : String) :
    Option BroadcastDraft → List (Nat × String) → Option BroadcastDraft × Nat
  | d, [] => (d, 0)
  | d, (t, pid) :: rest =>
    let s := onPhoto t (some pid) (some gid) d
    let s' := runBurstPhotos gid s.1 rest
    (s'.1, (if s.2 = .photoReceivedNext then 1 else 0) + s'.2)

/-- What an album burst run produces: the final draft, how many
`await_photos` → `await_text` transitions happened, and the time at which
the debounce callback ran, if it did. -/
structure BurstResult where
  draft : Option BroadcastDraft
  transitions : Nat
  fireTime : Option Nat
deriving Repr, DecidableEq

/-- The end-to-end event-loop execution of an album burst: the photo
events run in arrival order, and then the sole surviving timer — every
earlier one was `clearTimeout`-ed by the next accepted photo before its
deadline, since consecutive events are less than the debounce interval
apart — fires its callback at the deadline it was armed with. -/
def runAlbumBurst (gid : String) (d : Option BroadcastDraft)
    (burst : List (Nat × String)) : BurstResult :=
  let p := runBurstPhotos gid d burst
  match p.1 with
  | some dd =>
    match dd.mediaGroupTimer with
    | some deadline =>
      let f := mediaGroupTimerFire dd
      { draft := some f.1
        transitions := p.2 + (if f.2 ∧ dd.step = .await_photos then 1 else 0)
        fireTime := if f.2 then some deadline else none }
    | none => { draft := p.1, transitions := p.2, fireTime := none }
  | none => { draft := none, transitions := p.2, fireTime := none }

/-- Executable check of the burst timing premise: event times strictly
increase and consecutive events are less than the debounce interval
apart. -/
def burstGapsOk : List (Nat × String) → Bool
  | [] => true
  | [_] => true
  | a :: b :: rest =>
    (decide (a.1 < b.1) && decide (b.1 < a.1 + DEBOUNCE_MS)) && burstGapsOk (b :: rest)

/-- Running the photo events of a burst over a draft in `await_photos`
never transitions it: the first `MAX_BROADCAST_PHOTOS - photoFileIds.length`
events are pushed (re-arming the timer to their time plus the debounce),
the rest are rejected by the limit check without touching the timer. -/
theorem runBurstPhotos_spec (gid : String) :
    ∀ (burst : List (Nat × String)) (d : BroadcastDraft),
      d.step = .await_photos → d.photoFileIds.length ≤ MAX_BROADCAST_PHOTOS →
      ∃ d', runBurstPhotos gid (some d) burst = (some d', 0) ∧
        d'.step = .await_photos ∧
        d'.photoFileIds = d.photoFileIds
          ++ ((burst.take (MAX_BROADCAST_PHOTOS - d.photoFileIds.length)).map Prod.snd) ∧
        d'.text = d.text ∧
        d'.mediaGroupTimer
          = (match (burst.take (MAX_BROADCAST_PHOTOS - d.photoFileIds.length)).getLast? with
             | some p => some (p.1 + DEBOUNCE_MS)
             | none => d.mediaGroupTimer)
  | [], d => by
    intro hstate _hlen
    refine ⟨d, rfl, hstate, ?_, rfl, ?_⟩
    · simp
    · simp
  | (t, pid) :: rest, d => by
    intro hstate hlen
    by_cases hfull : MAX_BROADCAST_PHOTOS ≤ d.photoFileIds.length
    · have hstep : onPhoto t (some pid) (some gid) (some d)
          = (some d, .limitNotice) := by
        simp [onPhoto, hstate, hfull]
      have hzero : MAX_BROADCAST_PHOTOS - d.photoFileIds.length = 0 := by omega
      obtain ⟨d', hrun, h1, h2, h3, h4⟩ := runBurstPhotos_spec gid rest d hstate hlen
      refine ⟨d', ?_, h1, ?_, h3, ?_⟩
      · simp only [runBurstPhotos, hstep]
        simp [hrun]
      · rw [hzero] at h2 ⊢
        simpa using h2
      · rw [hzero] at h4 ⊢
        simpa using h4
    · have hlt : d.photoFileIds.length < MAX_BROADCAST_PHOTOS := by omega
      set d1 : BroadcastDraft := { d with photoFileIds := d.photoFileIds ++ [pid], mediaGroupId := some gid, mediaGroupTimer := some (t + DEBOUNCE_MS) } with hd1
      have hstep : onPhoto t (some pid) (some gid) (some d)
          = (some d1, .buffered) := by
        simp [onPhoto, hstate, hfull, hd1]
      have hstate1 : d1.step = .await_photos := hstate
      have hlen1 : d1.photoFileIds.length ≤ MAX_BROADCAST_PHOTOS := by
        rw [hd1]
        simp only [List.length_append, List.length_cons, List.length_nil]
        omega
      obtain ⟨d', hrun, h1, h2, h3, h4⟩ := runBurstPhotos_spec gid rest d1 hstate1 hlen1
      have hk : MAX_BROADCAST_PHOTOS - d.photoFileIds.length
          = (MAX_BROADCAST_PHOTOS - d1.photoFileIds.length) + 1 := by
        rw [hd1]
        simp only [List.length_append, List.length_cons, List.length_nil]
        omega
      refine ⟨d', ?_, h1, ?_, h3, ?_⟩
      · simp only [runBurstPhotos, hstep]
        simp [hrun]
      · rw [h2, hk, List.take_succ_cons]
        rw [hd1]
        simp [List.append_assoc]
      · rw [h4, hk, List.take_succ_cons]
        cases hx : rest.take (MAX_BROADCAST_PHOTOS - d1.photoFileIds.length) with
        | nil => simp [hd1]
        | cons y ys =>
          rw [List.getLast?_cons_cons]
          cases hq : (y :: ys).getLast? with
          | none =>
            exfalso
            exact List.cons_ne_nil y ys (List.getLast?_eq_none_iff.mp hq)
          | some q => rfl

/-- Counterexample to C7 as stated: a 4-photo album burst with gaps under
the debounce interval. The 4th photo is rejected by the limit check —
which returns *before* the timer logic, so the timer armed by the 3rd
photo (deadline 200 + 700 = 900) is neither cleared nor re-armed and its
callback runs at 900: strictly less than a debounce interval after the
last event at time 300 (which would be 1000). The transition therefore
does not wait for the debounce interval after the last event. -/
theorem burst_fire_before_last_event_debounce :
    burstGapsOk [((0 : Nat), "p1"), (100, "p2"), (200, "p3"), (300, "p4")] = true ∧
    (runAlbumBurst "g" (some freshBroadcastDraft)
        [(0, "p1"), (100, "p2"), (200, "p3"), (300, "p4")]).transitions = 1 ∧
    (runAlbumBurst "g" (some freshBroadcastDraft)
        [(0, "p1"), (100, "p2"), (200, "p3"), (300, "p4")]).fireTime = some 900 ∧
    900 < 300 + DEBOUNCE_MS := by
  decide

/-- C7 (amended): for every nonempty album burst whose events arrive
within less than the debounce interval of each other, the draft
transitions from `await_photos` to `await_text` exactly once, at the
debounce deadline armed by the last *accepted* photo event (for bursts of
at most `MAX_BROADCAST_PHOTOS` events, the last event itself), and
`photoFileIds` then holds the first `MAX_BROADCAST_PHOTOS` photos in
arrival order. -/
theorem burst_single_transition_after_last_accepted (gid : String)
    (burst : List (Nat × String)) (hne : burst ≠ [])
    (_hgap : burstGapsOk burst = true) :
    ∃ d, (runAlbumBurst gid (some freshBroadcastDraft) burst).draft = some d ∧
      d.step = .await_text ∧
      d.photoFileIds = (burst.take MAX_BROADCAST_PHOTOS).map Prod.snd ∧
      (runAlbumBurst gid (some freshBroadcastDraft) burst).transitions = 1 ∧
      (runAlbumBurst gid (some freshBroadcastDraft) burst).fireTime
        = ((burst.take MAX_BROADCAST_PHOTOS).getLast?).map
            (fun p => p.1 + DEBOUNCE_MS) := by
  obtain ⟨d', hrun, h1, h2, h3, h4⟩ :=
    runBurstPhotos_spec gid burst freshBroadcastDraft rfl
      (by simp [freshBroadcastDraft, MAX_BROADCAST_PHOTOS])
  have htake_ne : burst.take MAX_BROADCAST_PHOTOS ≠ [] := by
    intro hcon
    rcases List.take_eq_nil_iff.mp hcon with h | h
    · exact absurd h (by simp [MAX_BROADCAST_PHOTOS])
    · exact hne h
  obtain ⟨q, hq⟩ : ∃ q, (burst.take MAX_BROADCAST_PHOTOS).getLast? = some q := by
    cases hqq : (burst.take MAX_BROADCAST_PHOTOS).getLast? with
    | none => exact absurd (List.getLast?_eq_none_iff.mp hqq) htake_ne
    | some q => exact ⟨q, rfl⟩
  have hfresh : freshBroadcastDraft.photoFileIds.length = 0 := rfl
  rw [hfresh, Nat.sub_zero] at h2 h4
  rw [hq] at h4
  have hdl : d'.mediaGroupTimer = some (q.1 + DEBOUNCE_MS) := h4
  have hne_photos : d'.photoFileIds.length ≠ 0 := by
    rw [h2]
    simp only [freshBroadcastDraft, List.nil_append, List.length_map]
    intro hcon
    exact htake_ne (List.length_eq_zero.mp hcon)
  have hfire : mediaGroupTimerFire d'
      = ({ d' with step := .await_text }, true) := by
    simp [mediaGroupTimerFire, hne_photos]
  refine ⟨{ d' with step := .await_text }, ?_, rfl, ?_, ?_, ?_⟩
  · unfold runAlbumBurst
    rw [hrun]
    dsimp only
    rw [hdl]
    dsimp only
    rw [hfire, hdl]
  · dsimp only
    rw [h2]
    simp [freshBroadcastDraft]
  · unfold runAlbumBurst
    rw [hrun]
    dsimp only
    rw [hdl]
    dsimp only
    rw [hfire]
    simp [h1]
  · unfold runAlbumBurst
    rw [hrun]
    dsimp only
    rw [hdl]
    dsimp only
    rw [hfire, hq]
    simp

/-- Witness for `burst_single_transition_after_last_accepted`: a concrete
2-photo burst 100ms apart. -/
theorem burst_single_transition_witness :
    ([((0 : Nat), "a"), (100, "b")] ≠ []) ∧
    burstGapsOk [(0, "a"), (100, "b")] = true ∧
    (∃ d, (runAlbumBurst "g" (some freshBroadcastDraft) [(0, "a"), (100, "b")]).draft
        = some d ∧
      d.step = .await_text ∧
      d.photoFileIds
        = ([((0 : Nat), "a"), (100, "b")].take MAX_BROADCAST_PHOTOS).map Prod.snd ∧
      (runAlbumBurst "g" (some freshBroadcastDraft) [(0, "a"), (100, "b")]).transitions
        = 1 ∧
      (runAlbumBurst "g" (some freshBroadcastDraft) [(0, "a"), (100, "b")]).fireTime
        = (([((0 : Nat), "a"), (100, "b")].take MAX_BROADCAST_PHOTOS).getLast?).map
            (fun p => p.1 + DEBOUNCE_MS)) :=
  ⟨by decide, by decide,
    burst_single_transition_after_last_accepted "g" [(0, "a"), (100, "b")]
      (by decide) (by decide)⟩

/-- C8: a photo event delivering a photo to a draft whose `photoFileIds`
already holds `MAX_BROADCAST_PHOTOS` photos is rejected with the
user-visible "максимум 3 фото" notice, and the draft — photos, step,
text, album id and timer alike — is left unchanged. -/
theorem photo_limit_rejected (time : Nat) (pid : String) (gid : Option String)
    (d : BroadcastDraft) (hstate : d.step = .await_photos)
    (hfull : d.photoFileIds.length = MAX_BROADCAST_PHOTOS) :
    onPhoto time (some pid) gid (some d) = (some d, .limitNotice) := by
  simp [onPhoto, hstate, hfull]

/-- Witness for `photo_limit_rejected`: a concrete 4th photo on a full
draft. -/
theorem photo_limit_rejected_witness :
    (⟨.await_photos, ["a", "b", "c"], none, some "g", some 900⟩ : BroadcastDraft).step
        = .await_photos ∧
    (⟨.await_photos, ["a", "b", "c"], none, some "g", some 900⟩
        : BroadcastDraft).photoFileIds.length = MAX_BROADCAST_PHOTOS ∧
    onPhoto 300 "d" (some "g")
        (some ⟨.await_photos, ["a", "b", "c"], none, some "g", some 900⟩)
      = (some ⟨.await_photos, ["a", "b", "c"], none, some "g", some 900⟩, .limitNotice) :=
  ⟨rfl, by decide,
    photo_limit_rejected 300 "d" (some "g")
      ⟨.await_photos, ["a", "b", "c"], none, some "g", some 900⟩ rfl (by decide)⟩

/-! ### Miniapp file-route ownership guard (`resolveTelegramUserId`,
`GET /miniapp/trainings/:id/file`, `GET /miniapp/nutrition/:id/file`) -/

/-- An untyped JS value as `parseTelegramId` distinguishes them: a finite
number, a non-blank string parsing to a finite number, a non-blank string
that does not, or a string that is blank after trimming. -/
inductive JsVal
  | num (n : Int)
  | numStr (n : Int)
  | badStr
  | blankStr
deriving Repr, DecidableEq

/-- `parseTelegramId(value)`: a finite number is returned as-is; a
non-blank string is parsed and returned when finite; everything else
(including a missing value) yields `null`. -/
def parseTelegramId : Option JsVal → Option Int
  | some (.num n) => some n
  | some (.numStr n) => some n
  | some .badStr => none
  | some .blankStr => none
  | none => none

/-- The parts of the request that `resolveTelegramUserId` reads:
`initDataId` stands for `resolveInitDataTelegramId(req)` (the id from the
HMAC-verified init data, or `null`), and the three fallbacks are the raw
`telegramId` values from query, body and the `x-telegram-id` header. -/
structure MiniappRequest where
  initDataId : Option Int
  queryTelegramId : Option JsVal
  bodyTelegramId : Option JsVal
  headerTelegramId : Option JsVal
deriving Repr, DecidableEq

/-- `resolveTelegramUserId(req)`: return the verified init-data id when it
is truthy (`if (initDataId) return initDataId`), otherwise the first
parseable of query `telegramId`, body `telegramId`, `x-telegram-id`
header (`??` chain). -/
def resolveTelegramUserId (req : MiniappRequest) : Option Int :=
  let fb :=
    (parseTelegramId req.queryTelegramId).orElse fun _ =>
      (parseTelegramId req.bodyTelegramId).orElse fun _ =>
        parseTelegramId req.headerTelegramId
  match req.initDataId with
  | some i => if i ≠ 0 then some i else fb
  | none => fb

/-- The order fields the file routes read: the owner and whether the
attachment view builds without error (an attachment is present and its
spreadsheet parses). -/
structure FileOrder where
  telegramUserId : Int
  viewOk : Bool
deriving Repr, DecidableEq

/-- The rendered response of a file route. -/
inductive FileResponse
  | missing
  | forbidden
  | view (httpStatus : Nat) (order : FileOrder)
deriving Repr, DecidableEq

/-- Rendering the attachment view data of an order:
`status = viewData.error ? 404 : 200`. -/
def fileViewOf (o : FileOrder) : FileResponse :=
  .view (if o.viewOk then 200 else 404) o

/-- `GET /miniapp/trainings/:id/file`: resolve the caller id, 404 when the
order is missing, 403 only when the resolved id is truthy and differs from
the order owner (`if (telegramId && order.telegramUserId !== telegramId)`),
otherwise render the attachment view. -/
def trainingFileHandler (req : MiniappRequest) (order : Option FileOrder) :
    FileResponse :=
  match order with
  | none => .missing
  | some o =>
    match resolveTelegramUserId req with
    | some t => if t ≠ 0 ∧ o.telegramUserId ≠ t then .forbidden else fileViewOf o
    | none => fileViewOf o

/-- `GET /miniapp/nutrition/:id/file`: the identical guard over the
nutrition order collection. -/
def nutritionFileHandler (req : MiniappRequest) (order : Option FileOrder) :
    FileResponse :=
  match order with
  | none => .missing
  | some o =>
    match resolveTelegramUserId req with
    | some t => if t ≠ 0 ∧ o.telegramUserId ≠ t then .forbidden else fileViewOf o
    | none => fileViewOf o

/-- C9: on both file routes, the 403 ownership rejection is issued exactly
when an order exists, a (truthy) telegram user id resolves from the
request, and it differs from the order's `telegramUserId`; when no id
resolves, the ownership check is skipped entirely and the attachment view
of any existing order is rendered. -/
theorem file_routes_ownership_guard (req : MiniappRequest)
    (order : Option FileOrder) :
    (trainingFileHandler req order = .forbidden ↔
      ∃ o t, order = some o ∧ resolveTelegramUserId req = some t ∧
        t ≠ 0 ∧ o.telegramUserId ≠ t) ∧
    (resolveTelegramUserId req = none →
      ∀ o, order = some o → trainingFileHandler req order = fileViewOf o) ∧
    (nutritionFileHandler req order = .forbidden ↔
      ∃ o t, order = some o ∧ resolveTelegramUserId req = some t ∧
        t ≠ 0 ∧ o.telegramUserId ≠ t) ∧
    (resolveTelegramUserId req = none →
      ∀ o, order = some o → nutritionFileHandler req order = fileViewOf o) := by
  have guard : ∀ (h : MiniappRequest → Option FileOrder → FileResponse),
      (∀ rq od, h rq od = (match od with
        | none => FileResponse.missing
        | some o =>
          match resolveTelegramUserId rq with
          | some t => if t ≠ 0 ∧ o.telegramUserId ≠ t then .forbidden else fileViewOf o
          | none => fileViewOf o)) →
      (h req order = .forbidden ↔
        ∃ o t, order = some o ∧ resolveTelegramUserId req = some t ∧
          t ≠ 0 ∧ o.telegramUserId ≠ t) ∧
      (resolveTelegramUserId req = none →
        ∀ o, order = some o → h req order = fileViewOf o) := by
    intro h hdefn
    rw [hdefn req order]
    constructor
    · cases order with
      | none =>
        simp only
        constructor
        · intro hcon
          exact absurd hcon (by simp [fileViewOf])
        · rintro ⟨o, t, hcon, -⟩
          exact absurd hcon (by simp)
      | some o =>
        cases hres : resolveTelegramUserId req with
        | none =>
          simp only
          constructor
          · intro hcon
            exact absurd hcon (by simp [fileViewOf])
          · rintro ⟨o', t, ho', ht, -⟩
            simp at ho'
            subst ho'
            exact absurd ht (by simp)
        | some t =>
          simp only
          by_cases hc : t ≠ 0 ∧ o.telegramUserId ≠ t
          · rw [if_pos hc]
            simp only [true_iff]
            exact ⟨o, t, rfl, rfl, hc.1, hc.2⟩
          · rw [if_neg hc]
            constructor
            · intro hcon
              exact absurd hcon (by simp [fileViewOf])
            · rintro ⟨o', t', ho', ht', h0', hne'⟩
              simp at ho' ht'
              subst ho'
              subst ht'
              exact absurd ⟨h0', hne'⟩ hc
    · intro hres o ho
      subst ho
      simp only [hres]
  exact ⟨(guard trainingFileHandler (fun _ _ => rfl) ).1,
    (guard trainingFileHandler (fun _ _ => rfl)).2,
    (guard nutritionFileHandler (fun _ _ => rfl)).1,
    (guard nutritionFileHandler (fun _ _ => rfl)).2⟩

/-- Witness for `file_routes_ownership_guard`: a request carrying no
usable telegram id at all renders the attachment view of an existing
order on both routes. -/
theorem file_routes_ownership_guard_witness :
    resolveTelegramUserId ⟨none, none, none, none⟩ = none ∧
    trainingFileHandler ⟨none, none, none, none⟩ (some ⟨7, true⟩)
      = fileViewOf ⟨7, true⟩ ∧
    nutritionFileHandler ⟨none, none, none, none⟩ (some ⟨7, true⟩)
      = fileViewOf ⟨7, true⟩ :=
  ⟨rfl,
    (file_routes_ownership_guard ⟨none, none, none, none⟩ (some ⟨7, true⟩)).2.1
      rfl ⟨7, true⟩ rfl,
    (file_routes_ownership_guard ⟨none, none, none, none⟩ (some ⟨7, true⟩)).2.2.2
      rfl ⟨7, true⟩ rfl⟩

/-! ### Admin order status transitions (`router.ts` accept / decline /
complete) -/

/-- An order's lifecycle status (`Order` schema enum). -/
inductive OrderStatus
  | pending
  | accepted
  | declined
  | completed
deriving Repr, DecidableEq

/-- The fields of an order document relevant to the admin transitions. -/
structure AdminOrder where
  oid : Nat
  telegramUserId : Int
  status : OrderStatus
  adminTelegramId : Option Int := none
  decisionAt : Option Nat := none
  completedAt : Option Nat := none
deriving Repr, DecidableEq

/-- The order collection. -/
abbrev OrderDb := List AdminOrder

/-- `Model.findOneAndUpdate({ _id, status }, update, { new: true })`:
update the first document matching both the id and the required status,
returning the updated document, or `null` (and the unchanged collection)
when none matches. -/
def findOneAndUpdate (oid : Nat) (s : OrderStatus)
    (upd : AdminOrder → AdminOrder) : OrderDb → Option AdminOrder × OrderDb
  | [] => (none, [])
  | o :: rest =>
    if o.oid = oid ∧ o.status = s then (some (upd o), upd o :: rest)
    else
      let r := findOneAndUpdate oid s upd rest
      (r.1, o :: r.2)

/-- The handler responses distinguished by the claim. -/
inductive ApiResult
  | badRequest
  | notFound
  | okStatus (label : String)
  | serverError
deriving Repr, DecidableEq

/-- The update written by `POST /api/admin/requests/:id/accept`. -/
def acceptUpdate (a : Int) (now : Nat) (o : AdminOrder) : AdminOrder :=
  { o with status := .accepted, adminTelegramId := some a, decisionAt := some now }

/-- The update written by `POST /api/admin/requests/:id/decline`. -/
def declineUpdate (a : Int) (now : Nat) (o : AdminOrder) : AdminOrder :=
  { o with status := .declined, adminTelegramId := some a, decisionAt := some now }

/-- The update written by `POST /api/admin/trainings/:id/complete`. -/
def completeUpdate (a : Int) (now : Nat) (o : AdminOrder) : AdminOrder :=
  { o with status := .completed, adminTelegramId := some a, completedAt := some now }

/-- The status-guarded lookup-and-respond step shared by the three
transition handlers: run the guarded `findOneAndUpdate`; 404 when nothing
matched, 200 with the transition label otherwise. -/
def guardedStatusUpdate (s : OrderStatus) (lab : String)
    (upd : AdminOrder → AdminOrder) (oid : Nat) (db : OrderDb) :
    ApiResult × OrderDb :=
  match findOneAndUpdate oid s upd db with
  | (none, db') => (.notFound, db')
  | (some _, db') => (.okStatus lab, db')

/-- `POST /api/admin/requests/:id/accept`: require a truthy admin id, an
attachment that passes the Excel checks and a successful file save, then
update only a *pending* order with the given id. `hasAttachment`,
`isExcel` and `saveOk` abstract the attachment pipeline (an external
collaborator); a failed save throws and is answered with a 500. -/
def acceptHandler :
    Option Int → Bool → Bool → Bool → Nat → Nat → OrderDb → ApiResult × OrderDb
  | none, _, _, _, _, _, db => (.badRequest, db)
  | some a, hasAttachment, isExcel, saveOk, oid, now, db =>
    if a = 0 then (.badRequest, db)
    else if hasAttachment = false then (.badRequest, db)
    else if isExcel = false then (.badRequest, db)
    else if saveOk = false then (.serverError, db)
    else guardedStatusUpdate .pending "accepted" (acceptUpdate a now) oid db

/-- `POST /api/admin/requests/:id/decline`: require a truthy admin id,
then update only a *pending* order with the given id. -/
def declineHandler :
    Option Int → Nat → Nat → OrderDb → ApiResult × OrderDb
  | none, _, _, db => (.badRequest, db)
  | some a, oid, now, db =>
    if a = 0 then (.badRequest, db)
    else guardedStatusUpdate .pending "declined" (declineUpdate a now) oid db

/-- `POST /api/admin/trainings/:id/complete`: require a truthy admin id,
then update only an *accepted* order with the given id. -/
def completeHandler :
    Option Int → Nat → Nat → OrderDb → ApiResult × OrderDb
  | none, _, _, db => (.badRequest, db)
  | some a, oid, now, db =>
    if a = 0 then (.badRequest, db)
    else guardedStatusUpdate .accepted "completed" (completeUpdate a now) oid db

/-- When no document matches both the id and the status, `findOneAndUpdate`
returns `null` and leaves the collection unchanged. -/
theorem findOneAndUpdate_no_match (oid : Nat) (s : OrderStatus)
    (upd : AdminOrder → AdminOrder) :
    ∀ db : OrderDb, (∀ o ∈ db, ¬(o.oid = oid ∧ o.status = s)) →
      findOneAndUpdate oid s upd db = (none, db)
  | [], _ => rfl
  | o :: rest, hno => by
    have ho : ¬(o.oid = oid ∧ o.status = s) := hno o (List.mem_cons_self o rest)
    have hrest := findOneAndUpdate_no_match oid s upd rest
      (fun x hx => hno x (List.mem_cons_of_mem o hx))
    simp only [findOneAndUpdate, if_neg ho, hrest]

/-- A null result from `findOneAndUpdate` always comes with the unchanged
collection. -/
theorem findOneAndUpdate_none_unchanged (oid : Nat) (s : OrderStatus)
    (upd : AdminOrder → AdminOrder) :
    ∀ db : OrderDb, (findOneAndUpdate oid s upd db).1 = none →
      (findOneAndUpdate oid s upd db).2 = db
  | [], _ => rfl
  | o :: rest, h => by
    by_cases ho : o.oid = oid ∧ o.status = s
    · rw [findOneAndUpdate, if_pos ho] at h
      exact absurd h (by simp)
    · simp only [findOneAndUpdate, if_neg ho] at h ⊢
      rw [findOneAndUpdate_none_unchanged oid s upd rest h]

/-- When `findOneAndUpdate` updates, the collection changes in exactly one
position: the first document matching the id and the status is replaced by
its update; everything before and after is untouched. -/
theorem findOneAndUpdate_match_shape (oid : Nat) (s : OrderStatus)
    (upd : AdminOrder → AdminOrder) :
    ∀ (db : OrderDb) (r : AdminOrder) (db' : OrderDb),
      findOneAndUpdate oid s upd db = (some r, db') →
      ∃ pre o post, db = pre ++ o :: post ∧ o.oid = oid ∧ o.status = s ∧
        r = upd o ∧ db' = pre ++ upd o :: post
  | [], r, db' => by
    intro hcon
    exact absurd hcon (by simp [findOneAndUpdate])
  | o :: rest, r, db' => by
    intro heq
    by_cases ho : o.oid = oid ∧ o.status = s
    · rw [findOneAndUpdate, if_pos ho] at heq
      injection heq with ha hb
      injection ha with ha
      refine ⟨[], o, rest, by simp, ho.1, ho.2, ha.symm, ?_⟩
      rw [← hb, List.nil_append]
    · rw [findOneAndUpdate, if_neg ho] at heq
      injection heq with ha hb
      obtain ⟨pre, o1, post, hsplit, h1, h2, h3, h4⟩ :=
        findOneAndUpdate_match_shape oid s upd rest r
          (findOneAndUpdate oid s upd rest).2 (by rw [← ha])
      refine ⟨o :: pre, o1, post, by rw [List.cons_append, ← hsplit], h1, h2, h3, ?_⟩
      rw [← hb, h4, List.cons_append]

/-- The guarded lookup either answers 404 with the untouched collection,
or performs exactly the one guarded replacement and answers 200. -/
theorem guardedStatusUpdate_cases (s : OrderStatus) (lab : String)
    (upd : AdminOrder → AdminOrder) (oid : Nat) (db : OrderDb) :
    guardedStatusUpdate s lab upd oid db = (.notFound, db) ∨
    (∃ pre o post, db = pre ++ o :: post ∧ o.oid = oid ∧ o.status = s ∧
      guardedStatusUpdate s lab upd oid db = (.okStatus lab, pre ++ upd o :: post)) := by
  unfold guardedStatusUpdate
  cases hf : findOneAndUpdate oid s upd db with
  | mk r1 d1 =>
    cases r1 with
    | none =>
      left
      have hd : (findOneAndUpdate oid s upd db).2 = db :=
        findOneAndUpdate_none_unchanged oid s upd db (by rw [hf])
      rw [hf] at hd
      have hd2 : d1 = db := hd
      subst hd2
      rfl
    | some r =>
      right
      obtain ⟨pre, o, post, hsplit, h1, h2, _h3, h4⟩ :=
        findOneAndUpdate_match_shape oid s upd db r d1 hf
      exact ⟨pre, o, post, hsplit, h1, h2, by rw [h4]⟩

/-- No matching document means a 404 with the untouched collection. -/
theorem guardedStatusUpdate_no_match (s : OrderStatus) (lab : String)
    (upd : AdminOrder → AdminOrder) (oid : Nat) (db : OrderDb)
    (hno : ∀ o ∈ db, ¬(o.oid = oid ∧ o.status = s)) :
    guardedStatusUpdate s lab upd oid db = (.notFound, db) := by
  unfold guardedStatusUpdate
  rw [findOneAndUpdate_no_match oid s upd db hno]

/-- C10: every admin status transition is guarded by the current status.
Accept and decline touch only an order that is currently `pending` (moving
it to `accepted`/`declined`), complete touches only an `accepted` order
(moving it to `completed`); in each case exactly that one document
changes. And whenever the guarded lookup matches nothing, the handler
answers 404 with the collection untouched. -/
theorem admin_status_transitions_guarded :
    (∀ adminId hasAtt isExcel saveOk oid now db r db',
      acceptHandler adminId hasAtt isExcel saveOk oid now db = (r, db') →
      (db' ≠ db → ∃ a pre o post, adminId = some a ∧ db = pre ++ o :: post ∧
        o.oid = oid ∧ o.status = .pending ∧
        db' = pre ++ acceptUpdate a now o :: post) ∧
      (r = .notFound → db' = db)) ∧
    (∀ adminId oid now db r db',
      declineHandler adminId oid now db = (r, db') →
      (db' ≠ db → ∃ a pre o post, adminId = some a ∧ db = pre ++ o :: post ∧
        o.oid = oid ∧ o.status = .pending ∧
        db' = pre ++ declineUpdate a now o :: post) ∧
      (r = .notFound → db' = db)) ∧
    (∀ adminId oid now db r db',
      completeHandler adminId oid now db = (r, db') →
      (db' ≠ db → ∃ a pre o post, adminId = some a ∧ db = pre ++ o :: post ∧
        o.oid = oid ∧ o.status = .accepted ∧
        db' = pre ++ completeUpdate a now o :: post) ∧
      (r = .notFound → db' = db)) ∧
    (∀ (a : Int) oid now (db : OrderDb), a ≠ 0 →
      (∀ o ∈ db, ¬(o.oid = oid ∧ o.status = .pending)) →
      acceptHandler (some a) true true true oid now db = (.notFound, db) ∧
      declineHandler (some a) oid now db = (.notFound, db)) ∧
    (∀ (a : Int) oid now (db : OrderDb), a ≠ 0 →
      (∀ o ∈ db, ¬(o.oid = oid ∧ o.status = .accepted)) →
      completeHandler (some a) oid now db = (.notFound, db)) := by
  have finish : ∀ (s : OrderStatus) (lab : String)
      (upd : AdminOrder → AdminOrder) (oid : Nat) (db : OrderDb)
      (r : ApiResult) (db' : OrderDb),
      guardedStatusUpdate s lab upd oid db = (r, db') →
      (db' ≠ db → ∃ pre o post, db = pre ++ o :: post ∧
        o.oid = oid ∧ o.status = s ∧ db' = pre ++ upd o :: post) ∧
      (r = .notFound → db' = db) := by
    intro s lab upd oid db r db' heq
    rcases guardedStatusUpdate_cases s lab upd oid db with hres | ⟨pre, o, post, hsplit, h1, h2, hres⟩
    · rw [hres] at heq
      injection heq with hx hy
      subst hy
      exact ⟨fun hne => absurd rfl hne, fun _ => rfl⟩
    · rw [hres] at heq
      injection heq with hx hy
      subst hy
      constructor
      · intro _
        exact ⟨pre, o, post, hsplit, h1, h2, rfl⟩
      · intro hnf
        rw [← hx] at hnf
        exact absurd hnf (by simp)
  refine ⟨?_, ?_, ?_, ?_, ?_⟩
  · intro adminId hasAtt isExcel saveOk oid now db r db' heq
    cases adminId with
    | none =>
      simp only [acceptHandler] at heq
      injection heq with _hx hy
      subst hy
      exact ⟨fun hne => absurd rfl hne, fun _ => rfl⟩
    | some a =>
      simp only [acceptHandler] at heq
      by_cases ha : a = 0
      · rw [if_pos ha] at heq
        injection heq with _hx hy
        subst hy
        exact ⟨fun hne => absurd rfl hne, fun _ => rfl⟩
      · rw [if_neg ha] at heq
        by_cases hatt : hasAtt = false
        · rw [if_pos hatt] at heq
          injection heq with _hx hy
          subst hy
          exact ⟨fun hne => absurd rfl hne, fun _ => rfl⟩
        · rw [if_neg hatt] at heq
          by_cases hexcel : isExcel = false
          · rw [if_pos hexcel] at heq
            injection heq with _hx hy
            subst hy
            exact ⟨fun hne => absurd rfl hne, fun _ => rfl⟩
          · rw [if_neg hexcel] at heq
            by_cases hsave : saveOk = false
            · rw [if_pos hsave] at heq
              injection heq with _hx hy
              subst hy
              exact ⟨fun hne => absurd rfl hne, fun _ => rfl⟩
            · rw [if_neg hsave] at heq
              obtain ⟨hmod, hnf⟩ := finish .pending "accepted" (acceptUpdate a now)
                oid db r db' heq
              constructor
              · intro hne
                obtain ⟨pre, o, post, hsplit, h1, h2, h3⟩ := hmod hne
                exact ⟨a, pre, o, post, rfl, hsplit, h1, h2, h3⟩
              · exact hnf
  · intro adminId oid now db r db' heq
    cases adminId with
    | none =>
      simp only [declineHandler] at heq
      injection heq with _hx hy
      subst hy
      exact ⟨fun hne => absurd rfl hne, fun _ => rfl⟩
    | some a =>
      simp only [declineHandler] at heq
      by_cases ha : a = 0
      · rw [if_pos ha] at heq
        injection heq with _hx hy
        subst hy
        exact ⟨fun hne => absurd rfl hne, fun _ => rfl⟩
      · rw [if_neg ha] at heq
        obtain ⟨hmod, hnf⟩ := finish .pending "declined" (declineUpdate a now)
          oid db r db' heq
        constructor
        · intro hne
          obtain ⟨pre, o, post, hsplit, h1, h2, h3⟩ := hmod hne
          exact ⟨a, pre, o, post, rfl, hsplit, h1, h2, h3⟩
        · exact hnf
  · intro adminId oid now db r db' heq
    cases adminId with
    | none =>
      simp only [completeHandler] at heq
      injection heq with _hx hy
      subst hy
      exact ⟨fun hne => absurd rfl hne, fun _ => rfl⟩
    | some a =>
      simp only [completeHandler] at heq
      by_cases ha : a = 0
      · rw [if_pos ha] at heq
        injection heq with _hx hy
        subst hy
        exact ⟨fun hne => absurd rfl hne, fun _ => rfl⟩
      · rw [if_neg ha] at heq
        obtain ⟨hmod, hnf⟩ := finish .accepted "completed" (completeUpdate a now)
          oid db r db' heq
        constructor
        · intro hne
          obtain ⟨pre, o, post, hsplit, h1, h2, h3⟩ := hmod hne
          exact ⟨a, pre, o, post, rfl, hsplit, h1, h2, h3⟩
        · exact hnf
  · intro a oid now db ha hno
    constructor
    · simp only [acceptHandler]
      rw [if_neg ha, if_neg (by decide : ¬ (true = false)),
        if_neg (by decide : ¬ (true = false)), if_neg (by decide : ¬ (true = false))]
      exact guardedStatusUpdate_no_match _ _ _ _ _ hno
    · simp only [declineHandler]
      rw [if_neg ha]
      exact guardedStatusUpdate_no_match _ _ _ _ _ hno
  · intro a oid now db ha hno
    simp only [completeHandler]
    rw [if_neg ha]
    exact guardedStatusUpdate_no_match _ _ _ _ _ hno

/-- Witness for `admin_status_transitions_guarded`: with a valid admin id
and a collection holding only an already-`accepted` order, accept and
decline with that order's id answer 404 and leave the collection as is. -/
theorem admin_status_transitions_guarded_witness :
    ((5 : Int) ≠ 0) ∧
    (∀ o ∈ [(⟨1, 9, .accepted, none, none, none⟩ : AdminOrder)],
      ¬(o.oid = 1 ∧ o.status = .pending)) ∧
    (acceptHandler (some 5) true true true 1 77
        [⟨1, 9, .accepted, none, none, none⟩]
      = (.notFound, [⟨1, 9, .accepted, none, none, none⟩]) ∧
    declineHandler (some 5) 1 77 [⟨1, 9, .accepted, none, none, none⟩]
      = (.notFound, [⟨1, 9, .accepted, none, none, none⟩])) :=
  ⟨by decide, by decide,
    admin_status_transitions_guarded.2.2.2.1 5 1 77
      [⟨1, 9, .accepted, none, none, none⟩] (by decide) (by decide)⟩

end TREN
